import Mathlib

/-!
Verification of the position-prediction core of the `where-is-clara` vessel
tracker.  The definitions below are shallow embeddings of the TypeScript
source:

* `predictPath`, `shouldPredictPosition`, `isInPort`, `getNextPort`,
  `getClosestPort` follow `frontend/src/lib/utils.ts` (the revision in
  `src/unnamed/part_003`, which carries the distance guard and the
  end-arc-length clamp).
* `predictPosition` follows `frontend/src/components/HomePage.tsx`.
* `densifyLineString` and `interpolateGreatCircle` follow
  `src/unnamed/part_003`.

Timestamps are modelled as the number returned by JavaScript's
`Date.getTime()`: milliseconds since the epoch, a rational.  A port's
`dep_datetime` is modelled as the result of parsing it (`Option ℚ`): `none`
stands for a string that parses to an Invalid Date, whose `getTime()` is NaN
and compares `false` against every number, exactly as in the source.

The external `@turf` geometry primitives consumed by `predictPath` and the
waypoint helpers (`distance`, `nearestPointOnLine`, `along`, `lineSlice`,
`length`) are not code of this repository; they are kept abstract as the
fields of a `Geo` record, and the spec's contracts for them are taken as
explicit hypotheses where a claim needs them.  The one exception is turf's
`distance` inside the densifier, which claim C8 needs concretely: it is
modelled from the spec as the haversine great-circle distance on a sphere of
radius 6371.0088 km (turf's `earthRadius`), written over the reals.
-/

namespace Clara

/-- A reported vessel state (`Position` in `frontend/src/types/types.ts`),
with the numeric type a parameter so the same shape serves the exact
rational embedding and the real-valued dead-reckoning arithmetic.
`is_predicted` is the flag the predictors set on derived fixes. -/
structure Position (α : Type) where
  id : String
  mmsi : String
  latitude : α
  longitude : α
  timestamp : α
  navigation_status : Int
  speed_over_ground : α
  course_over_ground : α
  heading : α
  is_predicted : Bool
  deriving Repr, DecidableEq

/-- A scheduled route stop (`Port` in `frontend/src/types/types.ts`).
`dep_datetime` is the parsed departure instant (`none` = absent or not a
valid instant).  Display-only metadata (country, flag) is omitted. -/
structure Port where
  dep_datetime : Option ℚ
  lat : ℚ
  lon : ℚ
  day : String
  id : String
  title : String
  locode : String
  timezone : String
  deriving Repr, DecidableEq

/-- The route-aware predictor's output (`PredictedPath` in the source):
a path segment as a coordinate list ((lon, lat) pairs, geojson order)
plus the predicted end position. -/
structure PredictedPath where
  path : List (ℚ × ℚ)
  endPosition : Position ℚ
  deriving Repr, DecidableEq

/-- The external `@turf` geometry collaborators, kept abstract.  Modelled
from the spec: `distMeters` is great-circle distance in meters,
`nearestPointOnLine` returns the snapped point together with its
`location` (arc length from the line's start, km; optional in the turf
type, hence `Option`), `lineLength` the total length in km, `along` the
point at a given arc length, `lineSlice` the sub-line between two points. -/
structure Geo where
  distMeters : (ℚ × ℚ) → (ℚ × ℚ) → ℚ
  nearestPointOnLine : List (ℚ × ℚ) → (ℚ × ℚ) → (ℚ × ℚ) × Option ℚ
  lineLength : List (ℚ × ℚ) → ℚ
  along : List (ℚ × ℚ) → ℚ → (ℚ × ℚ)
  lineSlice : (ℚ × ℚ) → (ℚ × ℚ) → List (ℚ × ℚ) → List (ℚ × ℚ)

/-- `getNextPort`'s filter predicate: `new Date(port.dep_datetime).getTime()
> new Date(currentPosition.timestamp).getTime()`.  An Invalid Date's
`getTime()` is NaN, and `NaN > t` is `false`, so a `none` departure never
qualifies. -/
def depAfter (dep : Option ℚ) (t : ℚ) : Bool :=
  match dep with
  | some d => decide (d > t)
  | none => false

/-- `getNextPort` from `src/unnamed/part_003` (lines 117-130): keep the
ports whose departure parses and is strictly later than the fix's
timestamp; return the first of them, or `null` when none remain. -/
def getNextPort (ports : List Port) (currentPosition : Position ℚ) : Option Port :=
  let nextPorts := ports.filter fun port => depAfter port.dep_datetime currentPosition.timestamp
  match nextPorts with
  | [] => none
  | p :: _ => some p

/-- `isInPort` from `src/unnamed/part_003` (lines 151-168): `false` on an
empty port list, else pair every port with its distance to the fix, sort by
that distance (JavaScript's stable sort under the `a.distance - b.distance`
comparator), and compare the first element's distance against 1000 m. -/
def isInPort (g : Geo) (ports : List Port) (currentPosition : Position ℚ) : Bool :=
  if ports.isEmpty then false
  else
    let withDist := ports.map fun port =>
      (port, g.distMeters (currentPosition.longitude, currentPosition.latitude) (port.lon, port.lat))
    let sorted := withDist.mergeSort fun a b => decide (a.2 ≤ b.2)
    match sorted with
    | [] => false
    | closestPort :: _ => decide (closestPort.2 < 1000)

/-- `shouldPredictPosition` from `src/unnamed/part_003` (lines 226-235):
not in port, and the last fix older than five minutes.  `now` stands for
the source's `new Date().getTime()`. -/
def shouldPredictPosition (g : Geo) (ports : List Port) (lastPosition : Position ℚ)
    (now : ℚ) : Bool :=
  let timeSinceLastPosition := now - lastPosition.timestamp
  !(isInPort g ports lastPosition) && decide (timeSinceLastPosition > 1000 * 60 * 5)

/-- `predictPath` from `src/unnamed/part_003` (lines 170-224): dead-reckon
the distance travelled since the fix, bail out when it is not positive,
project the fix onto the route, advance the clamped arc length along it,
slice the route between projection and end point, and prepend the raw fix
coordinate.  `now` stands for the source's `new Date().getTime()`. -/
def predictPath (g : Geo) (position : Position ℚ) (cruisePath : List (ℚ × ℚ))
    (now : ℚ) : Option PredictedPath :=
  let elapsedMs := now - position.timestamp
  let elapsedHours := elapsedMs / (1000 * 60 * 60)
  let distanceNm := position.speed_over_ground * elapsedHours
  let distanceKm := distanceNm * 1.852
  if distanceKm ≤ 0 then none
  else
    let nearestPoint := g.nearestPointOnLine cruisePath (position.longitude, position.latitude)
    let startDistance := nearestPoint.2.getD 0
    let endDistance := startDistance + distanceKm
    let totalLength := g.lineLength cruisePath
    let clampedEndDistance := max startDistance (min endDistance totalLength)
    let endPoint := g.along cruisePath clampedEndDistance
    let pathSegment := g.lineSlice nearestPoint.1 endPoint cruisePath
    let pathSegment := (position.longitude, position.latitude) :: pathSegment
    some
      { path := pathSegment
        endPosition :=
          { position with
            id := position.id ++ "-predicted"
            timestamp := now
            latitude := endPoint.2
            longitude := endPoint.1
            is_predicted := true } }

/-- The dead-reckoned distance `predictPath` computes, in km (speed in
knots times elapsed hours, times 1.852). -/
def deadReckonedKm (position : Position ℚ) (now : ℚ) : ℚ :=
  position.speed_over_ground * ((now - position.timestamp) / (1000 * 60 * 60)) * 1.852

noncomputable section

/-- `predictPosition` from `frontend/src/components/HomePage.tsx`
(lines 141-173): straight dead reckoning.  Distance in nautical miles from
speed and elapsed hours; one nautical mile is one arc minute of latitude;
the longitude step divides by the cosine of the latitude.  `now` stands for
the source's `new Date().getTime()`. -/
def predictPosition (position : Position ℝ) (now : ℝ) : Position ℝ :=
  let elapsedMs := now - position.timestamp
  let elapsedHours := elapsedMs / (1000 * 60 * 60)
  let distanceNm := position.speed_over_ground * elapsedHours
  let courseRad := position.course_over_ground * Real.pi / 180
  let latRad := position.latitude * Real.pi / 180
  let deltaLat := distanceNm * Real.cos courseRad / 60
  let deltaLon := distanceNm * Real.sin courseRad / (60 * Real.cos latRad)
  { position with
    id := position.id ++ "-predicted"
    timestamp := now
    latitude := position.latitude + deltaLat
    longitude := position.longitude + deltaLon
    is_predicted := true }

/-- Degrees to radians, the source's `toRad`. -/
def toRad (deg : ℝ) : ℝ := deg * Real.pi / 180

/-- Radians to degrees, the source's `toDeg`. -/
def toDeg (rad : ℝ) : ℝ := rad * 180 / Real.pi

/-- JavaScript's `Math.atan2 y x`: the argument of the complex number
`x + i y` (zero at the origin, like `Math.atan2 0 0`). -/
def atan2 (y x : ℝ) : ℝ := Complex.arg ⟨x, y⟩

/-- Turf's `earthRadius` constant, in kilometers. -/
def earthRadiusKm : ℝ := 6371.0088

/-- Modelled from the spec: turf's `distance` — "great-circle distance
between two (lon,lat) points using a standard spherical-Earth formula"
(the haversine formula, as `@turf/distance` implements it), in km. -/
def haversineKm (a b : ℝ × ℝ) : ℝ :=
  let dLat := toRad (b.2 - a.2)
  let dLon := toRad (b.1 - a.1)
  let lat1 := toRad a.2
  let lat2 := toRad b.2
  let h := Real.sin (dLat / 2) ^ 2 + Real.sin (dLon / 2) ^ 2 * Real.cos lat1 * Real.cos lat2
  earthRadiusKm * (2 * atan2 (Real.sqrt h) (Real.sqrt (1 - h)))

/-- The unit position vector of a point given in radians: the source's
`(x, y, z)` basis, with `x = cos lat * cos lon`, `y = cos lat * sin lon`,
`z = sin lat`. -/
def vec3 (lonRad latRad : ℝ) : ℝ × ℝ × ℝ :=
  (Real.cos latRad * Real.cos lonRad, Real.cos latRad * Real.sin lonRad, Real.sin latRad)

/-- Euclidean dot product on ℝ³ written over nested pairs. -/
def dot3 (u v : ℝ × ℝ × ℝ) : ℝ :=
  u.1 * v.1 + u.2.1 * v.2.1 + u.2.2 * v.2.2

/-- The spherical linear interpolation step of the source's loop body:
the combination `a • u + b • v` with `a = sin((1-f)d)/sin d` and
`b = sin(fd)/sin d`. -/
def slerpF (u v : ℝ × ℝ × ℝ) (d f : ℝ) : ℝ × ℝ × ℝ :=
  let a := Real.sin ((1 - f) * d) / Real.sin d
  let b := Real.sin (f * d) / Real.sin d
  (a * u.1 + b * v.1, a * u.2.1 + b * v.2.1, a * u.2.2 + b * v.2.2)

/-- Back from a 3-vector to (lon, lat) in degrees, as the source's loop
body does: `lat = atan2(z, sqrt(x^2 + y^2))`, `lon = atan2(y, x)`, both
converted with `toDeg`, pushed as a `[lon, lat]` coordinate. -/
def recover (w : ℝ × ℝ × ℝ) : ℝ × ℝ :=
  (toDeg (atan2 w.2.1 w.1), toDeg (atan2 w.2.2 (Real.sqrt (w.1 ^ 2 + w.2.1 ^ 2))))

/-- `interpolateGreatCircle` from `src/unnamed/part_003` (lines 50-84):
the central angle `d` by the spherical law of cosines; empty when `d = 0`;
otherwise the `numSegments - 1` slerp points at fractions
`i / numSegments`, `i = 1, ..., numSegments - 1`, recovered to degrees. -/
def interpolateGreatCircle (start e : ℝ × ℝ) (numSegments : ℕ) : List (ℝ × ℝ) :=
  let lon1 := toRad start.1
  let lat1 := toRad start.2
  let lon2 := toRad e.1
  let lat2 := toRad e.2
  let d := Real.arccos (Real.sin lat1 * Real.sin lat2 +
    Real.cos lat1 * Real.cos lat2 * Real.cos (lon2 - lon1))
  if d = 0 then []
  else
    (List.range (numSegments - 1)).map fun (i : ℕ) =>
      recover (slerpF (vec3 lon1 lat1) (vec3 lon2 lat2) d (((i : ℝ) + 1) / (numSegments : ℝ)))

/-- The loop of `densifyLineString`, one step per consecutive pair:
when the pair is farther apart than `maxSegmentKm`, push the
`ceil(segmentDist / maxSegmentKm) - 1` interpolated points, then always
push the segment's end point. -/
def densifySegs (maxSegmentKm : ℝ) : (ℝ × ℝ) → List (ℝ × ℝ) → List (ℝ × ℝ)
  | _, [] => []
  | start, e :: rest =>
    let segmentDist := haversineKm start e
    (if segmentDist > maxSegmentKm then
      interpolateGreatCircle start e (⌈segmentDist / maxSegmentKm⌉.toNat)
    else []) ++ e :: densifySegs maxSegmentKm e rest

/-- `densifyLineString` from `src/unnamed/part_003` (lines 87-103): the
first coordinate followed by the densified segments. -/
def densifyLineString (coordinates : List (ℝ × ℝ)) (maxSegmentKm : ℝ) : List (ℝ × ℝ) :=
  match coordinates with
  | [] => []
  | c :: rest => c :: densifySegs maxSegmentKm c rest

/-- The cosine of the central angle between two (lon, lat) degree points:
the dot product of their unit position vectors.  Two points are antipodal
exactly when this is `-1`. -/
def cosAngle (a b : ℝ × ℝ) : ℝ :=
  dot3 (vec3 (toRad a.1) (toRad a.2)) (vec3 (toRad b.1) (toRad b.2))

end

/-- A concrete instantiation of the abstract turf collaborators, used by
the witnesses: taxicab distance, projection to the point itself at
location 0, a line of length 10 km, `along` moving on the equator. -/
def testGeo : Geo where
  distMeters := fun p q => |p.1 - q.1| + |p.2 - q.2|
  nearestPointOnLine := fun _ p => (p, some 0)
  lineLength := fun _ => 10
  along := fun _ k => (k, 0)
  lineSlice := fun a b _ => [a, b]

/-- A concrete fix: underway at 1 knot due east, reported at epoch 0. -/
def basePos : Position ℚ where
  id := "fix-1"
  mmsi := "123456789"
  latitude := 0
  longitude := 0
  timestamp := 0
  navigation_status := 0
  speed_over_ground := 1
  course_over_ground := 90
  heading := 90
  is_predicted := false

/-- The same fix reported stationary (speed over ground 0). -/
def stillPos : Position ℚ :=
  { basePos with id := "fix-2", speed_over_ground := 0 }

/-- A fix whose timestamp is 11:00 (in epoch milliseconds of some day). -/
def fixEleven : Position ℚ :=
  { basePos with id := "fix-3", timestamp := 39600000 }

/-- A port whose departure parses to 10:00. -/
def portTen : Port where
  dep_datetime := some 36000000
  lat := 10
  lon := 10
  day := "Day 1"
  id := "port-10"
  title := "First port"
  locode := "AAAAA"
  timezone := "UTC"

/-- A port whose departure parses to 14:00. -/
def portFourteen : Port where
  dep_datetime := some 50400000
  lat := 20
  lon := 20
  day := "Day 2"
  id := "port-14"
  title := "Second port"
  locode := "BBBBB"
  timezone := "UTC"

/-- The journey's final port: no scheduled departure. -/
def portFinal : Port where
  dep_datetime := none
  lat := 30
  lon := 30
  day := "Day 3"
  id := "port-end"
  title := "Last port"
  locode := "CCCCC"
  timezone := "UTC"

/-- A real-valued fix on the equator heading due north at 60 knots,
reported at epoch 0. -/
noncomputable def equatorFix : Position ℝ where
  id := "fix-real"
  mmsi := "123456789"
  latitude := 0
  longitude := 7
  timestamp := 0
  navigation_status := 0
  speed_over_ground := 60
  course_over_ground := 0
  heading := 0
  is_predicted := false

/-- The same fix but timestamped one hour in the future (epoch 3600000 ms),
so that at `now = 0` the elapsed time is negative. -/
noncomputable def futureFix : Position ℝ :=
  { equatorFix with id := "fix-future", timestamp := 3600000 }

/-- The start arc length `predictPath` uses: the `location` of the fix's
projection onto the route (`?? 0` when absent). -/
def startArcLen (g : Geo) (position : Position ℚ) (cruisePath : List (ℚ × ℚ)) : ℚ :=
  ((g.nearestPointOnLine cruisePath (position.longitude, position.latitude)).2).getD 0

/-- The end arc length `predictPath` uses: start plus dead-reckoned
distance, clamped into `[startArcLen, lineLength]`. -/
def endArcLen (g : Geo) (position : Position ℚ) (cruisePath : List (ℚ × ℚ)) (now : ℚ) : ℚ :=
  max (startArcLen g position cruisePath)
    (min (startArcLen g position cruisePath + deadReckonedKm position now) (g.lineLength cruisePath))

/-- The predicted path `predictPath` returns in its non-null case, written
out: the raw fix coordinate consed onto the route slice from the projected
point to the point at the clamped end arc length, and the derived end
position placed at that point. -/
def predictedResult (g : Geo) (position : Position ℚ) (cruisePath : List (ℚ × ℚ))
    (now : ℚ) : PredictedPath where
  path :=
    (position.longitude, position.latitude) ::
      g.lineSlice (g.nearestPointOnLine cruisePath (position.longitude, position.latitude)).1
        (g.along cruisePath (endArcLen g position cruisePath now)) cruisePath
  endPosition :=
    { position with
      id := position.id ++ "-predicted"
      timestamp := now
      latitude := (g.along cruisePath (endArcLen g position cruisePath now)).2
      longitude := (g.along cruisePath (endArcLen g position cruisePath now)).1
      is_predicted := true }

section Theorems

/-- Helper: `(l.filter p).head?` finds the first element satisfying `p`. -/
lemma head?_filter_eq_find? {α : Type} (p : α → Bool) :
    ∀ l : List α, (l.filter p).head? = l.find? p := by
  intro l
  induction l with
  | nil => rfl
  | cons a l ih =>
    by_cases h : p a
    · simp [List.filter_cons, List.find?_cons, h]
    · simp only [List.filter_cons, List.find?_cons, Bool.not_eq_true] at h ⊢
      rw [h]
      simp [ih]

/-- Helper: `getNextPort` is the first port of the list whose parsed
departure lies strictly after the fix's timestamp. -/
lemma getNextPort_eq_find? (ports : List Port) (pos : Position ℚ) :
    getNextPort ports pos = ports.find? fun port => depAfter port.dep_datetime pos.timestamp := by
  unfold getNextPort
  rw [← head?_filter_eq_find?]
  cases ports.filter fun port => depAfter port.dep_datetime pos.timestamp <;> rfl

/-- Helper: when the dead-reckoned distance is not positive, `predictPath`
takes its early `null` return. -/
lemma predictPath_eq_none (g : Geo) (position : Position ℚ) (cruisePath : List (ℚ × ℚ))
    (now : ℚ) (h : deadReckonedKm position now ≤ 0) :
    predictPath g position cruisePath now = none := by
  have h' : position.speed_over_ground * ((now - position.timestamp) / (1000 * 60 * 60)) * 1.852 ≤ 0 := by
    simpa [deadReckonedKm] using h
  simp [predictPath, h']

/-- Helper: inverting a non-null `predictPath` result: the distance was
positive and the result is exactly `predictedResult`. -/
lemma predictPath_some_inv (g : Geo) (position : Position ℚ) (cruisePath : List (ℚ × ℚ))
    (now : ℚ) (r : PredictedPath) (hr : predictPath g position cruisePath now = some r) :
    0 < deadReckonedKm position now ∧ r = predictedResult g position cruisePath now := by
  by_cases hc : position.speed_over_ground * ((now - position.timestamp) / (1000 * 60 * 60)) * 1.852 ≤ 0
  · rw [predictPath_eq_none g position cruisePath now (by simpa [deadReckonedKm] using hc)] at hr
    exact absurd hr (by simp)
  · refine ⟨by simpa [deadReckonedKm] using not_le.mp hc, ?_⟩
    simp only [predictPath, if_neg hc, Option.some.injEq] at hr
    subst hr
    simp [predictedResult, endArcLen, startArcLen, deadReckonedKm]

/-- Helper: `isInPort` holds exactly when some port lies strictly within
1000 m of the fix (the head of the distance-sorted list is minimal). -/
lemma isInPort_iff (g : Geo) (ports : List Port) (pos : Position ℚ) :
    isInPort g ports pos = true ↔
      ∃ port ∈ ports, g.distMeters (pos.longitude, pos.latitude) (port.lon, port.lat) < 1000 := by
  by_cases hvac : ports.isEmpty
  · rw [List.isEmpty_iff] at hvac
    subst hvac
    simp [isInPort]
  · have htrans : ∀ a b c : Port × ℚ, (decide (a.2 ≤ b.2)) = true → (decide (b.2 ≤ c.2)) = true →
        (decide (a.2 ≤ c.2)) = true := by
      intro a b c hab hbc
      simp only [decide_eq_true_eq] at hab hbc ⊢
      exact le_trans hab hbc
    have htotal : ∀ a b : Port × ℚ, ((decide (a.2 ≤ b.2)) || (decide (b.2 ≤ a.2))) = true := by
      intro a b
      simp only [Bool.or_eq_true, decide_eq_true_eq]
      exact le_total a.2 b.2
    set f : Port → Port × ℚ := fun port =>
      (port, g.distMeters (pos.longitude, pos.latitude) (port.lon, port.lat)) with hf
    have hperm := List.mergeSort_perm (ports.map f) fun a b => decide (a.2 ≤ b.2)
    rcases hs : (ports.map f).mergeSort (fun a b => decide (a.2 ≤ b.2)) with _ | ⟨c, rest⟩
    · rw [hs] at hperm
      have : ports.map f = [] := hperm.symm.eq_nil
      rw [List.map_eq_nil_iff] at this
      subst this
      simp at hvac
    · have hmem : c ∈ ports.map f := by
        rw [hs] at hperm
        exact hperm.mem_iff.mp (List.mem_cons_self c rest)
      have hsorted := List.sorted_mergeSort htrans htotal (ports.map f)
      rw [hs] at hsorted
      have hmin : ∀ x ∈ ports.map f, c.2 ≤ x.2 := by
        intro x hx
        rw [hs] at hperm
        rcases List.mem_cons.mp (hperm.mem_iff.mpr hx) with h1 | h1
        · exact le_of_eq (by rw [h1])
        · have := (List.pairwise_cons.mp hsorted).1 x h1
          simpa using this
      have hcalc : isInPort g ports pos = decide (c.2 < 1000) := by
        unfold isInPort
        rw [if_neg hvac]
        show (match (ports.map f).mergeSort (fun a b => decide (a.2 ≤ b.2)) with
          | [] => false
          | closestPort :: _ => decide (closestPort.2 < 1000)) = decide (c.2 < 1000)
        rw [hs]
      rw [hcalc]
      simp only [decide_eq_true_eq]
      constructor
      · intro hc
        rcases List.mem_map.mp hmem with ⟨port, hport, hfp⟩
        refine ⟨port, hport, ?_⟩
        have h2 : c.2 = g.distMeters (pos.longitude, pos.latitude) (port.lon, port.lat) := by
          rw [← hfp]
        rw [← h2]
        exact hc
      · rintro ⟨port, hport, hd⟩
        have hle : c.2 ≤ (f port).2 := hmin _ (List.mem_map_of_mem f hport)
        exact lt_of_le_of_lt hle hd

/-- C1: for every fix, route and now, whenever route-aware `predictPath`
returns a prediction, the arc length it places the end position at is
`startArcLen + distanceKm` clamped into `[startArcLen, lineLength]`; in
particular (given turf's contract that the projection's `location` does
not exceed the line's length) the end position never lies beyond the end
of the route and never behind the projection point. -/
theorem predictPath_end_arc_clamped (g : Geo) (position : Position ℚ)
    (cruisePath : List (ℚ × ℚ)) (now : ℚ) (r : PredictedPath)
    (hloc : startArcLen g position cruisePath ≤ g.lineLength cruisePath)
    (hr : predictPath g position cruisePath now = some r) :
    endArcLen g position cruisePath now =
      max (startArcLen g position cruisePath)
        (min (startArcLen g position cruisePath + deadReckonedKm position now)
          (g.lineLength cruisePath)) ∧
    (r.endPosition.longitude, r.endPosition.latitude) =
      g.along cruisePath (endArcLen g position cruisePath now) ∧
    startArcLen g position cruisePath ≤ endArcLen g position cruisePath now ∧
    endArcLen g position cruisePath now ≤ g.lineLength cruisePath := by
  obtain ⟨-, hres⟩ := predictPath_some_inv g position cruisePath now r hr
  subst hres
  exact ⟨rfl, rfl, le_max_left _ _, max_le hloc (min_le_right _ _)⟩

/-- Witness for C1 at a concrete fix, route and geometry. -/
theorem predictPath_end_arc_clamped_witness :
    startArcLen testGeo basePos [(0, 0), (10, 0)] ≤ testGeo.lineLength [(0, 0), (10, 0)] ∧
    predictPath testGeo basePos [(0, 0), (10, 0)] 3600000 =
      some (predictedResult testGeo basePos [(0, 0), (10, 0)] 3600000) ∧
    (endArcLen testGeo basePos [(0, 0), (10, 0)] 3600000 =
      max (startArcLen testGeo basePos [(0, 0), (10, 0)])
        (min (startArcLen testGeo basePos [(0, 0), (10, 0)] + deadReckonedKm basePos 3600000)
          (testGeo.lineLength [(0, 0), (10, 0)])) ∧
    ((predictedResult testGeo basePos [(0, 0), (10, 0)] 3600000).endPosition.longitude,
      (predictedResult testGeo basePos [(0, 0), (10, 0)] 3600000).endPosition.latitude) =
      testGeo.along [(0, 0), (10, 0)] (endArcLen testGeo basePos [(0, 0), (10, 0)] 3600000) ∧
    startArcLen testGeo basePos [(0, 0), (10, 0)] ≤
      endArcLen testGeo basePos [(0, 0), (10, 0)] 3600000 ∧
    endArcLen testGeo basePos [(0, 0), (10, 0)] 3600000 ≤ testGeo.lineLength [(0, 0), (10, 0)]) :=
  ⟨by decide,
    by norm_num [predictPath, predictedResult, endArcLen, startArcLen, deadReckonedKm,
      testGeo, basePos],
    predictPath_end_arc_clamped testGeo basePos [(0, 0), (10, 0)] 3600000
      (predictedResult testGeo basePos [(0, 0), (10, 0)] 3600000) (by decide)
      (by norm_num [predictPath, predictedResult, endArcLen, startArcLen, deadReckonedKm,
        testGeo, basePos])⟩

/-- C2: for every fix and route, when the dead-reckoned distance
`speed_over_ground * elapsedHours * 1.852` is not positive (stationary or
no elapsed time), `predictPath` returns `null`: no predicted path, no
predicted position. -/
theorem predictPath_null_when_distance_nonpos (g : Geo) (position : Position ℚ)
    (cruisePath : List (ℚ × ℚ)) (now : ℚ) (h : deadReckonedKm position now ≤ 0) :
    predictPath g position cruisePath now = none :=
  predictPath_eq_none g position cruisePath now h

/-- Witness for C2: a stationary fix (speed over ground 0) one hour old. -/
theorem predictPath_null_when_distance_nonpos_witness :
    deadReckonedKm stillPos 3600000 ≤ 0 ∧
    predictPath testGeo stillPos [(0, 0), (10, 0)] 3600000 = none :=
  ⟨by simp [deadReckonedKm, stillPos, basePos],
    predictPath_null_when_distance_nonpos testGeo stillPos [(0, 0), (10, 0)] 3600000
      (by simp [deadReckonedKm, stillPos, basePos])⟩

/-- C5: whenever `predictPath` returns a prediction, the first coordinate
of the returned path is the fix's raw (unprojected) longitude/latitude,
prepended before the route slice taken from the projected point to the
predicted end point. -/
theorem predictPath_prepends_raw_fix (g : Geo) (position : Position ℚ)
    (cruisePath : List (ℚ × ℚ)) (now : ℚ) (r : PredictedPath)
    (hr : predictPath g position cruisePath now = some r) :
    r.path.head? = some (position.longitude, position.latitude) ∧
    r.path =
      (position.longitude, position.latitude) ::
        g.lineSlice (g.nearestPointOnLine cruisePath (position.longitude, position.latitude)).1
          (g.along cruisePath (endArcLen g position cruisePath now)) cruisePath := by
  obtain ⟨-, hres⟩ := predictPath_some_inv g position cruisePath now r hr
  subst hres
  exact ⟨rfl, rfl⟩

/-- Witness for C5 at a concrete fix, route and geometry. -/
theorem predictPath_prepends_raw_fix_witness :
    predictPath testGeo basePos [(0, 0), (20, 0)] 7200000 =
      some (predictedResult testGeo basePos [(0, 0), (20, 0)] 7200000) ∧
    ((predictedResult testGeo basePos [(0, 0), (20, 0)] 7200000).path.head? =
      some (basePos.longitude, basePos.latitude) ∧
    (predictedResult testGeo basePos [(0, 0), (20, 0)] 7200000).path =
      (basePos.longitude, basePos.latitude) ::
        testGeo.lineSlice
          (testGeo.nearestPointOnLine [(0, 0), (20, 0)] (basePos.longitude, basePos.latitude)).1
          (testGeo.along [(0, 0), (20, 0)] (endArcLen testGeo basePos [(0, 0), (20, 0)] 7200000))
          [(0, 0), (20, 0)]) :=
  ⟨by norm_num [predictPath, predictedResult, endArcLen, startArcLen, deadReckonedKm,
      testGeo, basePos],
    predictPath_prepends_raw_fix testGeo basePos [(0, 0), (20, 0)] 7200000
      (predictedResult testGeo basePos [(0, 0), (20, 0)] 7200000)
      (by norm_num [predictPath, predictedResult, endArcLen, startArcLen, deadReckonedKm,
        testGeo, basePos])⟩

/-- C6: `shouldPredictPosition` is true exactly when no waypoint lies
strictly within 1000 m of the fix and the fix is older than five minutes;
and concretely it is false at exactly four minutes elapsed and true at six
minutes, when no waypoint is within 1000 m. -/
theorem shouldPredict_iff_not_in_port_and_stale :
    (∀ (g : Geo) (ports : List Port) (pos : Position ℚ) (now : ℚ),
      shouldPredictPosition g ports pos now = true ↔
        (¬ ∃ port ∈ ports,
            g.distMeters (pos.longitude, pos.latitude) (port.lon, port.lat) < 1000) ∧
        1000 * 60 * 5 < now - pos.timestamp) ∧
    (∀ (g : Geo) (ports : List Port) (pos : Position ℚ),
      (∀ port ∈ ports,
          ¬ g.distMeters (pos.longitude, pos.latitude) (port.lon, port.lat) < 1000) →
        shouldPredictPosition g ports pos (pos.timestamp + 4 * 60 * 1000) = false ∧
        shouldPredictPosition g ports pos (pos.timestamp + 6 * 60 * 1000) = true) := by
  have main : ∀ (g : Geo) (ports : List Port) (pos : Position ℚ) (now : ℚ),
      shouldPredictPosition g ports pos now = true ↔
        (¬ ∃ port ∈ ports,
            g.distMeters (pos.longitude, pos.latitude) (port.lon, port.lat) < 1000) ∧
        1000 * 60 * 5 < now - pos.timestamp := by
    intro g ports pos now
    unfold shouldPredictPosition
    rw [Bool.and_eq_true, Bool.not_eq_true', ← Bool.not_eq_true (isInPort g ports pos),
      isInPort_iff]
    simp
  refine ⟨main, ?_⟩
  intro g ports pos h
  have hnone : ¬ ∃ port ∈ ports,
      g.distMeters (pos.longitude, pos.latitude) (port.lon, port.lat) < 1000 := by
    rintro ⟨port, hport, hd⟩
    exact h port hport hd
  constructor
  · rw [← Bool.not_eq_true, main]
    rintro ⟨-, habs⟩
    rw [add_sub_cancel_left] at habs
    norm_num at habs
  · rw [main, add_sub_cancel_left]
    exact ⟨hnone, by norm_num⟩

/-- C7: `getNextPort` returns the first port in input order whose
scheduled departure is strictly later than the fix's timestamp, and `null`
when no port qualifies or the list is empty; with departures at 10:00 and
14:00 and a fix at 11:00 it returns the 14:00 port. -/
theorem getNextPort_first_later_departure :
    (∀ (ports : List Port) (pos : Position ℚ),
      getNextPort ports pos = ports.find? fun port => depAfter port.dep_datetime pos.timestamp) ∧
    (∀ (ports : List Port) (pos : Position ℚ),
      (∀ port ∈ ports, depAfter port.dep_datetime pos.timestamp = false) →
        getNextPort ports pos = none) ∧
    (∀ pos : Position ℚ, getNextPort [] pos = none) ∧
    getNextPort [portTen, portFourteen] fixEleven = some portFourteen := by
  refine ⟨getNextPort_eq_find?, ?_, fun pos => rfl, by decide⟩
  intro ports pos h
  rw [getNextPort_eq_find?]
  rw [List.find?_eq_none]
  intro port hport
  simp [h port hport]

/-- C9: both predictors derive the predicted fix from the source fix
changing only position, timestamp, identifier and the predicted flag: the
id gains the `-predicted` suffix, the flag is set, the timestamp becomes
the prediction instant, and mmsi, navigation status, speed, course and
heading are copied unchanged.  (The embedding is pure, so the source fix
itself is never mutated.) -/
theorem predicted_fix_fields :
    (∀ (position : Position ℝ) (now : ℝ),
      (predictPosition position now).id = position.id ++ "-predicted" ∧
      (predictPosition position now).is_predicted = true ∧
      (predictPosition position now).timestamp = now ∧
      (predictPosition position now).mmsi = position.mmsi ∧
      (predictPosition position now).navigation_status = position.navigation_status ∧
      (predictPosition position now).speed_over_ground = position.speed_over_ground ∧
      (predictPosition position now).course_over_ground = position.course_over_ground ∧
      (predictPosition position now).heading = position.heading) ∧
    (∀ (g : Geo) (position : Position ℚ) (cruisePath : List (ℚ × ℚ)) (now : ℚ)
        (r : PredictedPath), predictPath g position cruisePath now = some r →
      r.endPosition.id = position.id ++ "-predicted" ∧
      r.endPosition.is_predicted = true ∧
      r.endPosition.timestamp = now ∧
      r.endPosition.mmsi = position.mmsi ∧
      r.endPosition.navigation_status = position.navigation_status ∧
      r.endPosition.speed_over_ground = position.speed_over_ground ∧
      r.endPosition.course_over_ground = position.course_over_ground ∧
      r.endPosition.heading = position.heading) := by
  constructor
  · intro position now
    exact ⟨rfl, rfl, rfl, rfl, rfl, rfl, rfl, rfl⟩
  · intro g position cruisePath now r hr
    obtain ⟨-, hres⟩ := predictPath_some_inv g position cruisePath now r hr
    subst hres
    exact ⟨rfl, rfl, rfl, rfl, rfl, rfl, rfl, rfl⟩

/-- C10: a port whose scheduled departure is absent or does not parse to a
comparable instant is never returned by `getNextPort`: any returned port
carries a parsed departure strictly later than the fix's timestamp. -/
theorem getNextPort_requires_parsed_departure (ports : List Port) (pos : Position ℚ)
    (port : Port) (h : getNextPort ports pos = some port) :
    ∃ d, port.dep_datetime = some d ∧ pos.timestamp < d := by
  rw [getNextPort_eq_find?] at h
  have hp := List.find?_some h
  cases hd : port.dep_datetime with
  | none => rw [hd] at hp; simp [depAfter] at hp
  | some d =>
    rw [hd] at hp
    simp only [depAfter, decide_eq_true_eq] at hp
    exact ⟨d, rfl, hp⟩

/-- Witness for C10: a list holding the final port (no departure) and a
later port; the final port is skipped. -/
theorem getNextPort_requires_parsed_departure_witness :
    getNextPort [portFinal, portFourteen] fixEleven = some portFourteen ∧
    ∃ d, portFourteen.dep_datetime = some d ∧ fixEleven.timestamp < d :=
  ⟨by decide,
    getNextPort_requires_parsed_departure [portFinal, portFourteen] fixEleven portFourteen
      (by decide)⟩

/-- C3: the dead-reckoning predictor adds
`distanceNm * cos(courseRad) / 60` degrees of latitude and
`distanceNm * sin(courseRad) / (60 * cos(latRad))` degrees of longitude,
with `distanceNm = speed_over_ground * elapsedHours`; at the equator,
course due north, 60 knots and one hour elapsed, the predicted latitude is
the fix latitude plus exactly one degree and the longitude is unchanged. -/
theorem predictPosition_dead_reckoning_formula :
    (∀ (position : Position ℝ) (now : ℝ),
      (predictPosition position now).latitude =
        position.latitude +
          position.speed_over_ground * ((now - position.timestamp) / (1000 * 60 * 60)) *
            Real.cos (position.course_over_ground * Real.pi / 180) / 60 ∧
      (predictPosition position now).longitude =
        position.longitude +
          position.speed_over_ground * ((now - position.timestamp) / (1000 * 60 * 60)) *
            Real.sin (position.course_over_ground * Real.pi / 180) /
            (60 * Real.cos (position.latitude * Real.pi / 180))) ∧
    (predictPosition equatorFix 3600000).latitude = equatorFix.latitude + 1 ∧
    (predictPosition equatorFix 3600000).longitude = equatorFix.longitude := by
  refine ⟨fun position now => ⟨rfl, rfl⟩, ?_, ?_⟩
  · show equatorFix.latitude + _ = equatorFix.latitude + 1
    norm_num [equatorFix]
  · show equatorFix.longitude + _ = equatorFix.longitude
    norm_num [equatorFix]

/-- Counterexample to C4: a fix on the equator due north at 60 knots whose
timestamp lies one hour in the future is predicted one degree of latitude
behind itself — `predictPosition` does not clamp negative elapsed time. -/
theorem predictPosition_future_fix_moves_backwards :
    (predictPosition futureFix 0).latitude < futureFix.latitude := by
  show futureFix.latitude + _ < futureFix.latitude
  norm_num [futureFix, equatorFix]

/-- C4 as amended: a fix with nonnegative speed and a timestamp at or
after `now` makes the dead-reckoned distance nonpositive, so route-aware
`predictPath` returns `null` and propagates nothing; dead-reckoning
`predictPosition`, however, applies no clamp: the negative distance flows
into the output coordinates (the future fix of the counterexample is
placed exactly one degree behind, longitude unchanged). -/
theorem predict_negative_elapsed_amended :
    (∀ (g : Geo) (position : Position ℚ) (cruisePath : List (ℚ × ℚ)) (now : ℚ),
      0 ≤ position.speed_over_ground → now ≤ position.timestamp →
      predictPath g position cruisePath now = none) ∧
    (predictPosition futureFix 0).latitude = futureFix.latitude - 1 ∧
    (predictPosition futureFix 0).longitude = futureFix.longitude := by
  refine ⟨?_, ?_, ?_⟩
  · intro g position cruisePath now hsog hnow
    apply predictPath_eq_none
    unfold deadReckonedKm
    have h1 : (now - position.timestamp) / (1000 * 60 * 60) ≤ 0 :=
      div_nonpos_of_nonpos_of_nonneg (sub_nonpos.mpr hnow) (by norm_num)
    have h2 : position.speed_over_ground * ((now - position.timestamp) / (1000 * 60 * 60)) ≤ 0 :=
      mul_nonpos_iff.mpr (Or.inl ⟨hsog, h1⟩)
    nlinarith
  · show futureFix.latitude + _ = futureFix.latitude - 1
    norm_num [futureFix, equatorFix]
  · show futureFix.longitude + _ = futureFix.longitude
    norm_num [futureFix, equatorFix]

/-- Helper: radians survive the round trip through degrees. -/
lemma toRad_toDeg (x : ℝ) : toRad (toDeg x) = x := by
  unfold toRad toDeg
  field_simp

/-- Helper: `toRad` is additive over subtraction. -/
lemma toRad_sub (x y : ℝ) : toRad (x - y) = toRad x - toRad y := by
  unfold toRad
  ring

/-- Helper: the half-angle form of the haversine. -/
lemma sin_sq_half_angle (x : ℝ) : Real.sin (x / 2) ^ 2 = (1 - Real.cos x) / 2 := by
  rw [Real.sin_sq_eq_half_sub, show 2 * (x / 2) = x by ring]
  ring

/-- Helper: the dot product of two unit position vectors is the spherical
law of cosines. -/
lemma dot3_vec3 (l1 p1 l2 p2 : ℝ) :
    dot3 (vec3 l1 p1) (vec3 l2 p2) =
      Real.sin p1 * Real.sin p2 + Real.cos p1 * Real.cos p2 * Real.cos (l2 - l1) := by
  unfold dot3 vec3
  rw [Real.cos_sub]
  ring

/-- Helper: position vectors are unit vectors. -/
lemma dot3_vec3_self (l p : ℝ) : dot3 (vec3 l p) (vec3 l p) = 1 := by
  rw [dot3_vec3, sub_self, Real.cos_zero]
  linear_combination Real.sin_sq_add_cos_sq p

/-- Helper: Cauchy-Schwarz for unit 3-vectors, componentwise. -/
lemma dot3_bounds (u v : ℝ × ℝ × ℝ) (hu : dot3 u u = 1) (hv : dot3 v v = 1) :
    -1 ≤ dot3 u v ∧ dot3 u v ≤ 1 := by
  obtain ⟨u1, u2, u3⟩ := u
  obtain ⟨v1, v2, v3⟩ := v
  unfold dot3 at hu hv ⊢
  simp only at hu hv ⊢
  constructor
  · nlinarith [sq_nonneg (u1 + v1), sq_nonneg (u2 + v2), sq_nonneg (u3 + v3)]
  · nlinarith [sq_nonneg (u1 - v1), sq_nonneg (u2 - v2), sq_nonneg (u3 - v3)]

/-- Helper: the haversine distance is the Earth radius times the central
angle `arccos` of the dot product of the two position vectors. -/
lemma haversineKm_eq (a b : ℝ × ℝ) :
    haversineKm a b = earthRadiusKm * Real.arccos (cosAngle a b) := by
  set D := cosAngle a b with hD
  have hDlo : -1 ≤ D ∧ D ≤ 1 := by
    rw [hD]
    unfold cosAngle
    exact dot3_bounds _ _ (dot3_vec3_self (toRad a.1) (toRad a.2))
      (dot3_vec3_self (toRad b.1) (toRad b.2))
  have hDval : D = Real.sin (toRad a.2) * Real.sin (toRad b.2) +
      Real.cos (toRad a.2) * Real.cos (toRad b.2) * Real.cos (toRad b.1 - toRad a.1) := by
    rw [hD]
    unfold cosAngle
    rw [dot3_vec3]
  simp only [haversineKm]
  rw [toRad_sub, toRad_sub]
  set h := Real.sin ((toRad b.2 - toRad a.2) / 2) ^ 2 +
      Real.sin ((toRad b.1 - toRad a.1) / 2) ^ 2 * Real.cos (toRad a.2) * Real.cos (toRad b.2)
    with hh
  have hhval : h = (1 - D) / 2 := by
    rw [hh, hDval, sin_sq_half_angle, sin_sq_half_angle, Real.cos_sub]
    ring
  have hh0 : 0 ≤ h := by rw [hhval]; linarith [hDlo.2]
  have hh1 : h ≤ 1 := by rw [hhval]; linarith [hDlo.1]
  have hn : Complex.normSq ⟨Real.sqrt (1 - h), Real.sqrt h⟩ = 1 := by
    rw [Complex.normSq_mk]
    rw [show Real.sqrt (1 - h) * Real.sqrt (1 - h) = Real.sqrt (1 - h) ^ 2 by ring,
      show Real.sqrt h * Real.sqrt h = Real.sqrt h ^ 2 by ring,
      Real.sq_sqrt (by linarith), Real.sq_sqrt hh0]
    ring
  have habs : Complex.abs ⟨Real.sqrt (1 - h), Real.sqrt h⟩ = 1 := by
    rw [Complex.abs_apply, hn, Real.sqrt_one]
  have hz : (⟨Real.sqrt (1 - h), Real.sqrt h⟩ : ℂ) ≠ 0 := by
    intro h0
    rw [h0] at habs
    simp at habs
  set θ := atan2 (Real.sqrt h) (Real.sqrt (1 - h)) with hθ
  have hcosθ : Real.cos θ = Real.sqrt (1 - h) := by
    rw [hθ]
    unfold atan2
    rw [Complex.cos_arg hz, habs]
    simp
  have hθ0 : 0 ≤ θ := by
    rw [hθ]
    unfold atan2
    rw [Complex.arg_nonneg_iff]
    exact Real.sqrt_nonneg h
  have hθpi2 : θ ≤ Real.pi / 2 := by
    rw [hθ]
    unfold atan2
    rw [Complex.arg_le_pi_div_two_iff]
    exact Or.inl (Real.sqrt_nonneg (1 - h))
  have hcos2θ : Real.cos (2 * θ) = D := by
    rw [Real.cos_two_mul, hcosθ, Real.sq_sqrt (by linarith)]
    rw [hhval]
    ring
  have harc : Real.arccos D = 2 * θ := by
    rw [← hcos2θ]
    exact Real.arccos_cos (by linarith) (by linarith)
  rw [harc]

/-- Helper: the loop body's `atan2` recovery is a left inverse of `vec3`
on the unit sphere: rebuilding the position vector from the recovered
longitude and latitude gives back the vector. -/
lemma vec3_recover (w : ℝ × ℝ × ℝ) (hw : dot3 w w = 1) :
    vec3 (toRad (recover w).1) (toRad (recover w).2) = w := by
  obtain ⟨x, y, z⟩ := w
  unfold dot3 at hw
  simp only at hw
  unfold recover
  simp only [toRad_toDeg]
  set r := Real.sqrt (x ^ 2 + y ^ 2) with hr
  have hr0 : 0 ≤ r := Real.sqrt_nonneg _
  have hrsq : r ^ 2 = x ^ 2 + y ^ 2 := Real.sq_sqrt (by positivity)
  have habs2 : Complex.abs ⟨r, z⟩ = 1 := by
    rw [Complex.abs_apply, Complex.normSq_mk,
      show r * r + z * z = r ^ 2 + z ^ 2 by ring, hrsq,
      show x ^ 2 + y ^ 2 + z ^ 2 = 1 by nlinarith]
    exact Real.sqrt_one
  have hz2 : (⟨r, z⟩ : ℂ) ≠ 0 := by
    intro h0
    rw [h0] at habs2
    simp at habs2
  have hcoslat : Real.cos (atan2 z r) = r := by
    unfold atan2
    rw [Complex.cos_arg hz2, habs2]
    simp
  have hsinlat : Real.sin (atan2 z r) = z := by
    unfold atan2
    rw [Complex.sin_arg, habs2]
    simp
  rcases eq_or_lt_of_le hr0 with hreq | hrpos
  · have hxy : x ^ 2 + y ^ 2 = 0 := by rw [← hrsq, ← hreq]; ring
    have hx : x = 0 := by nlinarith [sq_nonneg x, sq_nonneg y]
    have hy : y = 0 := by nlinarith [sq_nonneg x, sq_nonneg y]
    subst hx
    subst hy
    unfold vec3
    rw [hcoslat, hsinlat, ← hreq]
    simp
  · have habs1 : Complex.abs ⟨x, y⟩ = r := by
      rw [Complex.abs_apply, Complex.normSq_mk, show x * x + y * y = x ^ 2 + y ^ 2 by ring, hr]
    have hz1 : (⟨x, y⟩ : ℂ) ≠ 0 := by
      intro h0
      rw [h0] at habs1
      simp only [map_zero] at habs1
      exact absurd habs1.symm (ne_of_gt hrpos)
    have hcoslon : Real.cos (atan2 y x) = x / r := by
      unfold atan2
      rw [Complex.cos_arg hz1, habs1]
    have hsinlon : Real.sin (atan2 y x) = y / r := by
      unfold atan2
      rw [Complex.sin_arg, habs1]
    unfold vec3
    rw [hcoslat, hsinlat, hcoslon, hsinlon]
    have hrne : r ≠ 0 := ne_of_gt hrpos
    simp only [Prod.mk.injEq]
    refine ⟨by field_simp, by field_simp, trivial⟩

/-- Helper: slerp at fraction 0 is the start vector. -/
lemma slerpF_zero (u v : ℝ × ℝ × ℝ) (d : ℝ) (hd : Real.sin d ≠ 0) :
    slerpF u v d 0 = u := by
  unfold slerpF
  rw [show (1 - (0 : ℝ)) * d = d by ring, show (0 : ℝ) * d = 0 by ring, Real.sin_zero,
    div_self hd]
  simp

/-- Helper: slerp at fraction 1 is the end vector. -/
lemma slerpF_one (u v : ℝ × ℝ × ℝ) (d : ℝ) (hd : Real.sin d ≠ 0) :
    slerpF u v d 1 = v := by
  unfold slerpF
  rw [show (1 - (1 : ℝ)) * d = 0 by ring, show (1 : ℝ) * d = d by ring, Real.sin_zero,
    div_self hd]
  simp

/-- Helper: the quadratic identity behind slerp's constant angular speed,
in cleared-denominator form. -/
lemma slerp_key (s c p P q Q u1 u2 u3 v1 v2 v3 : ℝ)
    (hu : u1 * u1 + u2 * u2 + u3 * u3 = 1) (hv : v1 * v1 + v2 * v2 + v3 * v3 = 1)
    (huv : u1 * v1 + u2 * v2 + u3 * v3 = c) (hpyth : s ^ 2 + c ^ 2 = 1) :
    ((s * P - c * p) * u1 + p * v1) * ((s * Q - c * q) * u1 + q * v1)
      + ((s * P - c * p) * u2 + p * v2) * ((s * Q - c * q) * u2 + q * v2)
      + ((s * P - c * p) * u3 + p * v3) * ((s * Q - c * q) * u3 + q * v3)
      = (Q * P + q * p) * s ^ 2 := by
  linear_combination ((s * P - c * p) * (s * Q - c * q)) * hu
    + ((s * P - c * p) * q + (s * Q - c * q) * p) * huv
    + (p * q) * hv - (p * q) * hpyth

/-- Helper: the dot product of two slerp points depends only on the
difference of their fractions: slerp traverses the great circle at
constant angular speed `d`. -/
lemma dot3_slerpF (u v : ℝ × ℝ × ℝ) (d f g' : ℝ)
    (hu : dot3 u u = 1) (hv : dot3 v v = 1) (huv : dot3 u v = Real.cos d)
    (hd : Real.sin d ≠ 0) :
    dot3 (slerpF u v d f) (slerpF u v d g') = Real.cos ((g' - f) * d) := by
  obtain ⟨u1, u2, u3⟩ := u
  obtain ⟨v1, v2, v3⟩ := v
  unfold slerpF dot3 at *
  simp only at hu hv huv ⊢
  rw [show (1 - f) * d = d - f * d by ring, show (1 - g') * d = d - g' * d by ring,
    show (g' - f) * d = g' * d - f * d by ring, Real.sin_sub, Real.sin_sub, Real.cos_sub]
  have key := slerp_key (Real.sin d) (Real.cos d) (Real.sin (f * d)) (Real.cos (f * d))
    (Real.sin (g' * d)) (Real.cos (g' * d)) u1 u2 u3 v1 v2 v3 hu hv huv
    (Real.sin_sq_add_cos_sq d)
  trans ((((Real.sin d * Real.cos (f * d) - Real.cos d * Real.sin (f * d)) * u1
      + Real.sin (f * d) * v1)
        * ((Real.sin d * Real.cos (g' * d) - Real.cos d * Real.sin (g' * d)) * u1
      + Real.sin (g' * d) * v1)
      + ((Real.sin d * Real.cos (f * d) - Real.cos d * Real.sin (f * d)) * u2
      + Real.sin (f * d) * v2)
        * ((Real.sin d * Real.cos (g' * d) - Real.cos d * Real.sin (g' * d)) * u2
      + Real.sin (g' * d) * v2)
      + ((Real.sin d * Real.cos (f * d) - Real.cos d * Real.sin (f * d)) * u3
      + Real.sin (f * d) * v3)
        * ((Real.sin d * Real.cos (g' * d) - Real.cos d * Real.sin (g' * d)) * u3
      + Real.sin (g' * d) * v3)) / Real.sin d ^ 2)
  · field_simp
    first
    | exact Or.inl trivial
    | exact Or.inl (by ring)
  · rw [key]
    exact mul_div_cancel_right₀ _ (pow_ne_zero 2 hd)

/-- Helper: when the endpoints are not coincident (central angle nonzero),
`interpolateGreatCircle` is the list of recovered slerp points at
fractions `(i+1)/n`, `i = 0, ..., n-2`. -/
lemma interpolateGreatCircle_eq_map (a b : ℝ × ℝ) (n : ℕ) (h : cosAngle a b < 1) :
    interpolateGreatCircle a b n =
      (List.range (n - 1)).map fun (i : ℕ) =>
        recover (slerpF (vec3 (toRad a.1) (toRad a.2)) (vec3 (toRad b.1) (toRad b.2))
          (Real.arccos (cosAngle a b)) (((i : ℝ) + 1) / (n : ℝ))) := by
  have harg : Real.sin (toRad a.2) * Real.sin (toRad b.2) +
      Real.cos (toRad a.2) * Real.cos (toRad b.2) * Real.cos (toRad b.1 - toRad a.1)
      = cosAngle a b := by
    unfold cosAngle
    rw [dot3_vec3]
  simp only [interpolateGreatCircle, harg]
  rw [if_neg (ne_of_gt (Real.arccos_pos.mpr h))]

/-- Helper: a non-degenerate segment receives exactly `n - 1` interpolated
points. -/
lemma interpolateGreatCircle_length (a b : ℝ × ℝ) (n : ℕ) (h : cosAngle a b < 1) :
    (interpolateGreatCircle a b n).length = n - 1 := by
  rw [interpolateGreatCircle_eq_map a b n h, List.length_map, List.length_range]

/-- Helper: a list built by mapping over `range` is a chain as soon as
adjacent images are related. -/
lemma chain'_map_range {α : Type} (r : α → α → Prop) (G : ℕ → α) (m : ℕ)
    (h : ∀ i, i + 1 < m → r (G i) (G (i + 1))) :
    List.Chain' r ((List.range m).map G) := by
  induction m generalizing G with
  | zero => simp
  | succ m ih =>
    rw [List.range_succ_eq_map, List.map_cons, List.map_map]
    rw [List.chain'_cons']
    refine ⟨?_, ih (G ∘ Nat.succ) ?_⟩
    · intro y hy
      cases m with
      | zero => simp at hy
      | succ k =>
        rw [List.range_succ_eq_map] at hy
        simp only [List.map_cons, List.head?_cons, Option.mem_def, Option.some.injEq] at hy
        subst hy
        exact h 0 (by omega)
    · intro i hi
      exact h (i + 1) (by omega)

/-- Helper: the haversine distance between two points whose position
vectors are known is the Earth radius times the angle between the
vectors. -/
lemma haversine_between (p q : ℝ × ℝ) (w1 w2 : ℝ × ℝ × ℝ)
    (hp : vec3 (toRad p.1) (toRad p.2) = w1) (hq : vec3 (toRad q.1) (toRad q.2) = w2) :
    haversineKm p q = earthRadiusKm * Real.arccos (dot3 w1 w2) := by
  rw [haversineKm_eq]
  unfold cosAngle
  rw [hp, hq]

/-- Helper: over a non-degenerate, non-antipodal segment, the refined
chain `a, interpolated points, b` has every consecutive haversine distance
equal to the segment's central angle times the Earth radius, divided by
`n`: the inserted points are evenly arc-spaced. -/
lemma interpolate_chain (a b : ℝ × ℝ) (n : ℕ) (hn : 1 ≤ n)
    (hDlow : -1 < cosAngle a b) (hDhigh : cosAngle a b < 1) :
    List.Chain'
      (fun p q => haversineKm p q = earthRadiusKm * Real.arccos (cosAngle a b) / (n : ℝ))
      (a :: (interpolateGreatCircle a b n ++ [b])) := by
  obtain ⟨m, rfl⟩ : ∃ m, n = m + 1 := ⟨n - 1, by omega⟩
  have hnR : (0 : ℝ) < ((m + 1 : ℕ) : ℝ) := by positivity
  have hnne : ((m + 1 : ℕ) : ℝ) ≠ 0 := ne_of_gt hnR
  have hu := dot3_vec3_self (toRad a.1) (toRad a.2)
  have hv := dot3_vec3_self (toRad b.1) (toRad b.2)
  have hd0 : 0 < Real.arccos (cosAngle a b) := Real.arccos_pos.mpr hDhigh
  have hdpi : Real.arccos (cosAngle a b) < Real.pi := by
    rcases lt_or_eq_of_le (Real.arccos_le_pi (cosAngle a b)) with h | h
    · exact h
    · exact absurd (Real.arccos_eq_pi.mp h) (by linarith)
  have hsind : Real.sin (Real.arccos (cosAngle a b)) ≠ 0 :=
    ne_of_gt (Real.sin_pos_of_pos_of_lt_pi hd0 hdpi)
  have huv : dot3 (vec3 (toRad a.1) (toRad a.2)) (vec3 (toRad b.1) (toRad b.2)) =
      Real.cos (Real.arccos (cosAngle a b)) := by
    rw [Real.cos_arccos (le_of_lt hDlow) (le_of_lt hDhigh)]
    rfl
  set u := vec3 (toRad a.1) (toRad a.2) with hudef
  set v := vec3 (toRad b.1) (toRad b.2) with hvdef
  set d := Real.arccos (cosAngle a b) with hddef
  have hPunit : ∀ f : ℝ, dot3 (slerpF u v d f) (slerpF u v d f) = 1 := by
    intro f
    rw [dot3_slerpF u v d f f hu hv huv hsind, sub_self, zero_mul, Real.cos_zero]
  set pt : ℕ → ℝ × ℝ := fun j =>
    if j = 0 then a else if j = m + 1 then b
    else recover (slerpF u v d ((j : ℝ) / ((m + 1 : ℕ) : ℝ))) with hpt
  have hpt0 : pt 0 = a := by simp [hpt]
  have hptn : pt (m + 1) = b := by simp [hpt]
  have hvec : ∀ j : ℕ, j ≤ m + 1 →
      vec3 (toRad (pt j).1) (toRad (pt j).2) = slerpF u v d ((j : ℝ) / ((m + 1 : ℕ) : ℝ)) := by
    intro j hj
    by_cases h0 : j = 0
    · subst h0
      rw [hpt0, Nat.cast_zero, zero_div, slerpF_zero u v d hsind, ← hudef]
    · by_cases hN : j = m + 1
      · subst hN
        rw [hptn, div_self hnne, slerpF_one u v d hsind, ← hvdef]
      · simp only [hpt, if_neg h0, if_neg hN]
        exact vec3_recover _ (hPunit _)
  have hadj : ∀ j : ℕ, j + 1 ≤ m + 1 →
      haversineKm (pt j) (pt (j + 1)) = earthRadiusKm * d / ((m + 1 : ℕ) : ℝ) := by
    intro j hj
    rw [haversine_between (pt j) (pt (j + 1)) _ _ (hvec j (by omega)) (hvec (j + 1) hj)]
    rw [dot3_slerpF u v d _ _ hu hv huv hsind]
    have hfrac : ((j + 1 : ℕ) : ℝ) / ((m + 1 : ℕ) : ℝ) - (j : ℝ) / ((m + 1 : ℕ) : ℝ)
        = 1 / ((m + 1 : ℕ) : ℝ) := by
      push_cast
      field_simp
    rw [hfrac]
    have hbound1 : 0 ≤ 1 / ((m + 1 : ℕ) : ℝ) * d := by positivity
    have hbound2 : 1 / ((m + 1 : ℕ) : ℝ) * d ≤ Real.pi := by
      have h1 : 1 / ((m + 1 : ℕ) : ℝ) ≤ 1 := by
        rw [div_le_one hnR]
        exact_mod_cast Nat.one_le_iff_ne_zero.mpr (by omega)
      have h2 : 1 / ((m + 1 : ℕ) : ℝ) * d ≤ 1 * d :=
        mul_le_mul_of_nonneg_right h1 (le_of_lt hd0)
      rw [one_mul] at h2
      linarith
    rw [Real.arccos_cos hbound1 hbound2]
    ring
  have hmid : List.map (pt ∘ Nat.succ) (List.range m) =
      List.map (fun (i : ℕ) =>
        recover (slerpF u v d (((i : ℝ) + 1) / ((m + 1 : ℕ) : ℝ)))) (List.range m) := by
    apply List.map_congr_left
    intro i hi
    rw [List.mem_range] at hi
    have h1 : i + 1 ≠ 0 := by omega
    have h2 : i + 1 ≠ m + 1 := by omega
    simp only [Function.comp, Nat.succ_eq_add_one, hpt, if_neg h1, if_neg h2]
    norm_num
  have hlist : a :: (interpolateGreatCircle a b (m + 1) ++ [b])
      = (List.range (m + 1 + 1)).map pt := by
    rw [interpolateGreatCircle_eq_map a b (m + 1) hDhigh]
    rw [List.range_succ, List.map_append, List.range_succ_eq_map, List.map_cons,
      List.map_map, hpt0, List.map_singleton, hptn, hmid]
    simp [hudef, hvdef, hddef]
  rw [hlist]
  apply chain'_map_range
  intro i hi
  exact hadj i (by omega)

/-- Helper: two chains sharing their junction element concatenate. -/
lemma chain'_glue {α : Type} (r : α → α → Prop) (xs ys : List α) (m : α)
    (h1 : List.Chain' r (xs ++ [m])) (h2 : List.Chain' r (m :: ys)) :
    List.Chain' r (xs ++ m :: ys) := by
  have hsplit : xs ++ m :: ys = (xs ++ [m]) ++ ys := by simp
  rw [hsplit, List.chain'_append]
  refine ⟨h1, (List.chain'_cons'.mp h2).2, ?_⟩
  intro x hx y hy
  rw [List.getLast?_concat] at hx
  simp only [Option.mem_def, Option.some.injEq] at hx
  subst hx
  exact (List.chain'_cons'.mp h2).1 y hy

/-- Helper: the cons equation of the densifier's loop. -/
lemma densifySegs_cons (maxSegmentKm : ℝ) (start e : ℝ × ℝ) (rest : List (ℝ × ℝ)) :
    densifySegs maxSegmentKm start (e :: rest) =
      (if maxSegmentKm < haversineKm start e then
        interpolateGreatCircle start e (⌈haversineKm start e / maxSegmentKm⌉.toNat)
      else []) ++ e :: densifySegs maxSegmentKm e rest := rfl

/-- Helper: the lower bound `-1 ≤ cosAngle`, Cauchy-Schwarz specialised. -/
lemma cosAngle_bounds (p q : ℝ × ℝ) : -1 ≤ cosAngle p q ∧ cosAngle p q ≤ 1 :=
  dot3_bounds _ _ (dot3_vec3_self (toRad p.1) (toRad p.2))
    (dot3_vec3_self (toRad q.1) (toRad q.2))

/-- Helper: a segment longer than `maxSegmentKm > 0` has central angle in
`(0, π)` when its endpoints are not antipodal, and its refined chain stays
within `maxSegmentKm` per step. -/
lemma long_segment_chain (maxKm : ℝ) (hmax : 0 < maxKm) (p q : ℝ × ℝ)
    (hnot : cosAngle p q ≠ -1) (hlong : maxKm < haversineKm p q) :
    List.Chain' (fun x y => haversineKm x y ≤ maxKm)
      (p :: (interpolateGreatCircle p q (⌈haversineKm p q / maxKm⌉.toNat) ++ [q])) := by
  have hR : (0 : ℝ) < earthRadiusKm := by norm_num [earthRadiusKm]
  have hlow : -1 < cosAngle p q := lt_of_le_of_ne (cosAngle_bounds p q).1 (Ne.symm hnot)
  have harcpos : 0 < Real.arccos (cosAngle p q) := by
    rcases lt_or_eq_of_le (Real.arccos_nonneg (cosAngle p q)) with h | h
    · exact h
    · exfalso
      have hzero : haversineKm p q = 0 := by rw [haversineKm_eq, ← h]; ring
      linarith
  have hhigh : cosAngle p q < 1 := Real.arccos_pos.mp harcpos
  have hd : haversineKm p q = earthRadiusKm * Real.arccos (cosAngle p q) := haversineKm_eq p q
  have hceil1 : (1 : ℝ) < haversineKm p q / maxKm := (one_lt_div hmax).mpr hlong
  have hceille : haversineKm p q / maxKm ≤ ((⌈haversineKm p q / maxKm⌉ : ℤ) : ℝ) :=
    Int.le_ceil _
  have hceilint : (1 : ℤ) ≤ ⌈haversineKm p q / maxKm⌉ := by
    have h1 : (1 : ℝ) < ((⌈haversineKm p q / maxKm⌉ : ℤ) : ℝ) := lt_of_lt_of_le hceil1 hceille
    exact_mod_cast le_of_lt h1
  have hn1 : 1 ≤ (⌈haversineKm p q / maxKm⌉).toNat := by omega
  have hnpos : 0 < (⌈haversineKm p q / maxKm⌉).toNat := by omega
  have hncast : (((⌈haversineKm p q / maxKm⌉).toNat : ℕ) : ℝ)
      = ((⌈haversineKm p q / maxKm⌉ : ℤ) : ℝ) := by
    norm_cast
    omega
  have hchain := interpolate_chain p q (⌈haversineKm p q / maxKm⌉).toNat hn1 hlow hhigh
  refine hchain.imp ?_
  intro x y hxy
  rw [hxy, ← hd]
  rw [div_le_iff₀ (by exact_mod_cast hnpos)]
  have hle : haversineKm p q / maxKm ≤ (((⌈haversineKm p q / maxKm⌉).toNat : ℕ) : ℝ) := by
    rw [hncast]
    exact hceille
  have h2 := (div_le_iff₀ hmax).mp hle
  linarith

/-- Helper: a segment longer than a positive threshold has central angle
strictly less than a full half-turn's cosine bound: `cosAngle < 1`. -/
lemma cosAngle_lt_one_of_long (maxKm : ℝ) (hmax : 0 < maxKm) (p q : ℝ × ℝ)
    (hlong : maxKm < haversineKm p q) : cosAngle p q < 1 := by
  have hR : (0 : ℝ) < earthRadiusKm := by norm_num [earthRadiusKm]
  have harcpos : 0 < Real.arccos (cosAngle p q) := by
    rcases lt_or_eq_of_le (Real.arccos_nonneg (cosAngle p q)) with h | h
    · exact h
    · exfalso
      have hzero : haversineKm p q = 0 := by rw [haversineKm_eq, ← h]; ring
      linarith
  exact Real.arccos_pos.mp harcpos

/-- Helper: the densifier's loop keeps every consecutive output distance
within the threshold, provided no consecutive input pair is antipodal. -/
lemma densifySegs_chain (maxKm : ℝ) (hmax : 0 < maxKm) :
    ∀ (l : List (ℝ × ℝ)) (prev : ℝ × ℝ),
      List.Chain' (fun p q => cosAngle p q ≠ -1) (prev :: l) →
      List.Chain' (fun p q => haversineKm p q ≤ maxKm) (prev :: densifySegs maxKm prev l)
  | [], prev, _ => by simp [densifySegs]
  | e :: rest, prev, h => by
    rw [List.chain'_cons] at h
    obtain ⟨hpe, hrest⟩ := h
    rw [densifySegs_cons]
    have htail := densifySegs_chain maxKm hmax rest e hrest
    by_cases hlong : maxKm < haversineKm prev e
    · rw [if_pos hlong]
      have hshape : prev ::
          (interpolateGreatCircle prev e (⌈haversineKm prev e / maxKm⌉.toNat)
            ++ e :: densifySegs maxKm e rest)
          = (prev :: interpolateGreatCircle prev e (⌈haversineKm prev e / maxKm⌉.toNat))
            ++ e :: densifySegs maxKm e rest := by
        simp
      rw [hshape]
      apply chain'_glue
      · have hseg := long_segment_chain maxKm hmax prev e hpe hlong
        simpa using hseg
      · exact htail
    · rw [if_neg hlong, List.nil_append, List.chain'_cons]
      exact ⟨le_of_not_lt hlong, htail⟩

/-- Helper: the densifier never drops an input point, in order. -/
lemma densifySegs_sublist (maxKm : ℝ) :
    ∀ (l : List (ℝ × ℝ)) (prev : ℝ × ℝ), l.Sublist (densifySegs maxKm prev l)
  | [], _ => List.Sublist.refl []
  | e :: rest, prev => by
    rw [densifySegs_cons]
    exact (List.Sublist.cons₂ e (densifySegs_sublist maxKm rest e)).trans
      (List.sublist_append_right _ _)

/-- Helper: the length of the densifier's loop output: one per input point
plus `ceil(dist/max) - 1` per long segment. -/
lemma densifySegs_length (maxKm : ℝ) (hmax : 0 < maxKm) :
    ∀ (l : List (ℝ × ℝ)) (prev : ℝ × ℝ),
      (densifySegs maxKm prev l).length = l.length +
        (((prev :: l).zip l).map fun s =>
          if maxKm < haversineKm s.1 s.2 then ⌈haversineKm s.1 s.2 / maxKm⌉.toNat - 1
          else 0).sum
  | [], prev => by simp [densifySegs]
  | e :: rest, prev => by
    rw [densifySegs_cons]
    have ih := densifySegs_length maxKm hmax rest e
    simp only [List.zip_cons_cons, List.map_cons, List.sum_cons, List.length_append,
      List.length_cons, ih]
    by_cases hlong : maxKm < haversineKm prev e
    · rw [if_pos hlong, if_pos hlong,
        interpolateGreatCircle_length _ _ _ (cosAngle_lt_one_of_long maxKm hmax prev e hlong)]
      omega
    · rw [if_neg hlong, if_neg hlong]
      simp only [List.length_nil]
      omega

/-- C8 as amended: for every coordinate list and positive `maxSegmentKm`,
`densifyLineString` (i) keeps every original point in its original order;
(ii) inserts exactly `ceil(segmentDist / maxSegmentKm) - 1` points into
each consecutive segment longer than `maxSegmentKm` and no others;
(iii) spaces the refined chain of a long non-antipodal segment evenly, each
consecutive pair exactly `segmentDist / ceil(segmentDist / maxSegmentKm)`
apart; and (iv) produces no segment longer than `maxSegmentKm`, provided
no two consecutive input points are antipodal (where the slerp formula
divides by `sin π = 0`). -/
theorem densify_properties :
    (∀ (coordinates : List (ℝ × ℝ)) (maxSegmentKm : ℝ),
      coordinates.Sublist (densifyLineString coordinates maxSegmentKm)) ∧
    (∀ (coordinates : List (ℝ × ℝ)) (maxSegmentKm : ℝ), 0 < maxSegmentKm →
      (densifyLineString coordinates maxSegmentKm).length = coordinates.length +
        ((coordinates.zip coordinates.tail).map fun s =>
          if maxSegmentKm < haversineKm s.1 s.2 then
            ⌈haversineKm s.1 s.2 / maxSegmentKm⌉.toNat - 1
          else 0).sum) ∧
    (∀ (a b : ℝ × ℝ) (maxSegmentKm : ℝ), 0 < maxSegmentKm → cosAngle a b ≠ -1 →
      maxSegmentKm < haversineKm a b →
      List.Chain' (fun p q => haversineKm p q =
          haversineKm a b / ((⌈haversineKm a b / maxSegmentKm⌉.toNat : ℕ) : ℝ))
        (a :: (interpolateGreatCircle a b ⌈haversineKm a b / maxSegmentKm⌉.toNat ++ [b]))) ∧
    (∀ (coordinates : List (ℝ × ℝ)) (maxSegmentKm : ℝ), 0 < maxSegmentKm →
      List.Chain' (fun p q => cosAngle p q ≠ -1) coordinates →
      List.Chain' (fun p q => haversineKm p q ≤ maxSegmentKm)
        (densifyLineString coordinates maxSegmentKm)) := by
  refine ⟨?_, ?_, ?_, ?_⟩
  · intro coords maxKm
    cases coords with
    | nil => simp [densifyLineString]
    | cons c rest => exact List.Sublist.cons₂ c (densifySegs_sublist maxKm rest c)
  · intro coords maxKm hmax
    cases coords with
    | nil => simp [densifyLineString]
    | cons c rest =>
      show (c :: densifySegs maxKm c rest).length = _
      rw [List.length_cons, densifySegs_length maxKm hmax rest c]
      simp only [List.length_cons, List.tail_cons]
      omega
  · intro a b maxKm hmax hnot hlong
    have hlow : -1 < cosAngle a b := lt_of_le_of_ne (cosAngle_bounds a b).1 (Ne.symm hnot)
    have hhigh := cosAngle_lt_one_of_long maxKm hmax a b hlong
    have hceil1 : (1 : ℝ) < haversineKm a b / maxKm := (one_lt_div hmax).mpr hlong
    have hceilint : (1 : ℤ) ≤ ⌈haversineKm a b / maxKm⌉ := by
      have h1 : (1 : ℝ) < ((⌈haversineKm a b / maxKm⌉ : ℤ) : ℝ) :=
        lt_of_lt_of_le hceil1 (Int.le_ceil _)
      exact_mod_cast le_of_lt h1
    have hn1 : 1 ≤ (⌈haversineKm a b / maxKm⌉).toNat := by omega
    have hchain := interpolate_chain a b (⌈haversineKm a b / maxKm⌉).toNat hn1 hlow hhigh
    refine hchain.imp ?_
    intro x y hxy
    rw [hxy]
    nth_rewrite 2 [haversineKm_eq a b]
    rfl
  · intro coords maxKm hmax hnot
    cases coords with
    | nil => simp [densifyLineString]
    | cons c rest => exact densifySegs_chain maxKm hmax rest c hnot

/-- Counterexample to C8 as stated: at the antipodal pair (0°E, 0°N) and
(180°E, 0°N) the central angle is π, the slerp formula divides by
`sin π = 0`, every inserted point degenerates to (0°, 0°), and the last
output segment spans half the globe, far more than `maxSegmentKm = 100`. -/
theorem densify_antipodal_counterexample :
    ¬ List.Chain' (fun p q => haversineKm p q ≤ 100)
      (densifyLineString [((0 : ℝ), (0 : ℝ)), ((180 : ℝ), (0 : ℝ))] 100) := by
  intro hchain
  have h180 : toRad 180 = Real.pi := by unfold toRad; ring
  have h0 : toRad 0 = 0 := by unfold toRad; ring
  have hcos : cosAngle ((0 : ℝ), (0 : ℝ)) ((180 : ℝ), (0 : ℝ)) = -1 := by
    unfold cosAngle
    simp only [h180, h0]
    unfold vec3 dot3
    simp [Real.cos_pi]
  have hhav : haversineKm ((0 : ℝ), (0 : ℝ)) ((180 : ℝ), (0 : ℝ))
      = earthRadiusKm * Real.pi := by
    rw [haversineKm_eq, hcos, Real.arccos_neg_one]
  have hpi3 := Real.pi_gt_three
  have hR : earthRadiusKm = 6371.0088 := rfl
  have hlong : (100 : ℝ) < haversineKm ((0 : ℝ), (0 : ℝ)) ((180 : ℝ), (0 : ℝ)) := by
    rw [hhav, hR]
    nlinarith
  have hslerp0 : ∀ (u v : ℝ × ℝ × ℝ) (f : ℝ), slerpF u v Real.pi f = (0, 0, 0) := by
    intro u v f
    unfold slerpF
    rw [Real.sin_pi]
    simp
  have hrec0 : recover ((0 : ℝ), (0 : ℝ), (0 : ℝ)) = ((0 : ℝ), (0 : ℝ)) := by
    unfold recover atan2
    have hz : (⟨Real.sqrt (0 ^ 2 + 0 ^ 2), 0⟩ : ℂ) = 0 := by
      rw [show ((0 : ℝ) ^ 2 + (0 : ℝ) ^ 2) = 0 by norm_num, Real.sqrt_zero]
      rfl
    rw [hz]
    rw [show (⟨(0 : ℝ), (0 : ℝ)⟩ : ℂ) = 0 from rfl]
    rw [Complex.arg_zero]
    unfold toDeg
    norm_num
  have hmap : interpolateGreatCircle ((0 : ℝ), (0 : ℝ)) ((180 : ℝ), (0 : ℝ))
      (⌈haversineKm ((0 : ℝ), (0 : ℝ)) ((180 : ℝ), (0 : ℝ)) / 100⌉.toNat)
      = List.replicate
          ((⌈haversineKm ((0 : ℝ), (0 : ℝ)) ((180 : ℝ), (0 : ℝ)) / 100⌉.toNat) - 1)
          ((0 : ℝ), (0 : ℝ)) := by
    rw [interpolateGreatCircle_eq_map _ _ _ (by rw [hcos]; norm_num)]
    have hcongr : List.map (fun (i : ℕ) =>
        recover (slerpF (vec3 (toRad (0 : ℝ)) (toRad (0 : ℝ)))
          (vec3 (toRad (180 : ℝ)) (toRad (0 : ℝ)))
          (Real.arccos (cosAngle ((0 : ℝ), (0 : ℝ)) ((180 : ℝ), (0 : ℝ))))
          (((i : ℝ) + 1) /
            ((⌈haversineKm ((0 : ℝ), (0 : ℝ)) ((180 : ℝ), (0 : ℝ)) / 100⌉.toNat : ℕ) : ℝ))))
        (List.range ((⌈haversineKm ((0 : ℝ), (0 : ℝ)) ((180 : ℝ), (0 : ℝ)) / 100⌉.toNat) - 1))
        = List.map (Function.const ℕ ((0 : ℝ), (0 : ℝ)))
          (List.range
            ((⌈haversineKm ((0 : ℝ), (0 : ℝ)) ((180 : ℝ), (0 : ℝ)) / 100⌉.toNat) - 1)) := by
      apply List.map_congr_left
      intro i hi
      rw [hcos, Real.arccos_neg_one, hslerp0, hrec0]
      rfl
    rw [hcongr, List.map_const, List.length_range]
  have hceil2 : (2 : ℤ) < ⌈haversineKm ((0 : ℝ), (0 : ℝ)) ((180 : ℝ), (0 : ℝ)) / 100⌉ := by
    have h2 : (2 : ℝ) < haversineKm ((0 : ℝ), (0 : ℝ)) ((180 : ℝ), (0 : ℝ)) / 100 := by
      rw [hhav, hR]
      nlinarith
    have h3 : (2 : ℝ) < ((⌈haversineKm ((0 : ℝ), (0 : ℝ)) ((180 : ℝ), (0 : ℝ)) / 100⌉ : ℤ) : ℝ) :=
      lt_of_lt_of_le h2 (Int.le_ceil _)
    exact_mod_cast h3
  have hm1 : 1 ≤ (⌈haversineKm ((0 : ℝ), (0 : ℝ)) ((180 : ℝ), (0 : ℝ)) / 100⌉.toNat) - 1 := by
    omega
  have hlist : densifyLineString [((0 : ℝ), (0 : ℝ)), ((180 : ℝ), (0 : ℝ))] 100
      = ((0 : ℝ), (0 : ℝ)) ::
        (List.replicate
          ((⌈haversineKm ((0 : ℝ), (0 : ℝ)) ((180 : ℝ), (0 : ℝ)) / 100⌉.toNat) - 1)
          ((0 : ℝ), (0 : ℝ)) ++ [((180 : ℝ), (0 : ℝ))]) := by
    show ((0 : ℝ), (0 : ℝ)) :: densifySegs 100 ((0 : ℝ), (0 : ℝ)) [((180 : ℝ), (0 : ℝ))] = _
    rw [densifySegs_cons, if_pos hlong, hmap]
    rfl
  rw [hlist] at hchain
  have htail := (List.chain'_cons'.mp hchain).2
  have hlink := (List.chain'_append.mp htail).2.2
  have hlast : (List.replicate
      ((⌈haversineKm ((0 : ℝ), (0 : ℝ)) ((180 : ℝ), (0 : ℝ)) / 100⌉.toNat) - 1)
      ((0 : ℝ), (0 : ℝ))).getLast? = some ((0 : ℝ), (0 : ℝ)) := by
    rw [List.getLast?_replicate]
    rw [if_neg (by omega)]
  have hcontr := hlink _ (by rw [hlast]; rfl) _ (by rfl)
  exact absurd hcontr (not_le.mpr hlong)

end Theorems

end Clara
